import Mathlib

/-
Verification of the `datadreamer` dataset-generation pipeline
(`datadreamer/pipelines/generate_dataset_from_scratch.py`).

The script parses CLI arguments, validates them (`check_args`), instantiates
one pretrained-model wrapper per pipeline stage, generates prompts and images,
annotates the images, and serializes results to JSON / image files.

The shallow embedding below models:
  * parsed argument sets as a structure `Args` (argparse guarantees the field
    types: `class_names` is a list of strings, `num_objects_range` a list of
    ints, so the `isinstance` checks of `check_args` hold by typing);
  * `torch.cuda.is_available()` as an explicit boolean parameter;
  * float arguments (`conf_threshold`) as rationals;
  * the external pretrained models (prompt generator, image generator,
    OWLv2) as oracles supplying their outputs;
  * the externally visible effects of `main` (files written, wrapper classes
    instantiated, matplotlib figures saved) as a trace of events.
-/

namespace DataDreamer

/-- A parsed argument set, mirroring the fields produced by `parse_args`.
The source field `batch_size_annotation` is embedded under the shortened
name `batch_size_annot`. -/
structure Args where
  save_dir : String
  task : String
  class_names : List String
  prompts_number : Int
  num_objects_range : List Int
  prompt_generator : String
  image_generator : String
  image_annotator : String
  synonym_generator : String
  conf_threshold : ℚ
  use_tta : Bool
  use_image_tester : Bool
  image_tester_patience : Int
  lm_quantization : String
  batch_size_prompt : Int
  batch_size_annot : Int
  batch_size_image : Int
  device : String
  seed : Int
  deriving DecidableEq, Repr

/-- Embedding of `check_args` (the save-directory creation check is outside
the model: the claims quantify over argument sets for which the save
directory exists or can be created).  Each `if` mirrors one `raise
ValueError` site, in source order; `cudaAvailable` stands for
`torch.cuda.is_available()`. -/
def check_args (cudaAvailable : Bool) (a : Args) : Except String Unit :=
  if a.class_names = [] then
    Except.error "--class_names must be a non-empty list of strings"
  else if a.prompts_number ≤ 0 then
    Except.error "--prompts_number must be a positive integer"
  else if a.num_objects_range.length ≠ 2 ∨
      a.num_objects_range.getD 0 0 > a.num_objects_range.getD 1 0 then
    Except.error "--num_objects_range must be two integers where the first is less than or equal to the second"
  else if a.num_objects_range.getD 1 0 > (a.class_names.length : Int) then
    Except.error "--num_objects_range[1] must be less than or equal to the number of class names"
  else if ¬ (0 ≤ a.conf_threshold ∧ a.conf_threshold ≤ 1) then
    Except.error "--conf_threshold must be between 0 and 1"
  else if a.image_tester_patience < 0 then
    Except.error "--image_tester_patience must be a non-negative integer"
  else if a.device = "cuda" ∧ ¬ cudaAvailable then
    Except.error "CUDA is not available. Please use --device cpu"
  else if a.lm_quantization ≠ "none" ∧
      (a.device = "cpu" ∨ ¬ cudaAvailable ∨ a.prompt_generator ≠ "lm") then
    Except.error "LM Quantization is only available for CUDA devices and Mistral LM"
  else if a.batch_size_prompt < 1 then
    Except.error "--batch_size_prompt must be a positive integer"
  else if a.batch_size_annot < 1 then
    Except.error "--batch_size_annotation must be a positive integer"
  else if a.batch_size_image < 1 then
    Except.error "--batch_size_image must be a positive integer"
  else if a.seed < 0 then
    Except.error "--seed must be a non-negative integer"
  else
    Except.ok ()

/-- The argument-constraint disjunction exactly as the specification phrases
it: at least one of the listed constraints is violated.  (For a parsed
argument set, `class_names` holds only strings and `num_objects_range` only
integers, so the `isinstance` parts of the first and third constraints hold
by typing.) -/
def ArgConstraintViolated (cudaAvailable : Bool) (a : Args) : Prop :=
  a.class_names = []
  ∨ a.prompts_number ≤ 0
  ∨ ¬ (a.num_objects_range.length = 2 ∧
        a.num_objects_range.getD 0 0 ≤ a.num_objects_range.getD 1 0)
  ∨ (a.class_names.length : Int) < a.num_objects_range.getD 1 0
  ∨ a.conf_threshold < 0
  ∨ 1 < a.conf_threshold
  ∨ a.image_tester_patience < 0
  ∨ (a.device = "cuda" ∧ cudaAvailable = false)
  ∨ (a.lm_quantization ≠ "none" ∧
      (a.device = "cpu" ∨ cudaAvailable = false ∨ a.prompt_generator ≠ "lm"))
  ∨ a.batch_size_prompt < 1
  ∨ a.batch_size_annot < 1
  ∨ a.batch_size_image < 1
  ∨ a.seed < 0

instance (c : Bool) (a : Args) : Decidable (ArgConstraintViolated c a) := by
  unfold ArgConstraintViolated; infer_instance

/-- A detected bounding box `(x1, y1, x2, y2)` (floats modelled as ℚ). -/
abbrev Box := ℚ × ℚ × ℚ × ℚ

/-- Outputs of `OWLv2Annotator.annotate_batch` on one batch of images:
`boxes`, `scores`, `labels`, one list per image. -/
structure AnnOut where
  boxes : List (List Box)
  scores : List (List ℚ)
  labels : List (List Nat)

/-- Outputs of the external pretrained models, supplied as oracles:
`generatedPrompts` is the result of `generate_prompts()` (pairs of the
selected objects and the prompt text), `synonyms` the result of
`generate_synonyms_for_list(class_names)`, `imageBatches` the image batches
yielded by `generate_images` (images as abstract ids), and `annotate` the
result of `annotate_batch` on a batch of images given by their paths. -/
structure Oracles where
  generatedPrompts : List (List String × String)
  synonyms : List (String × List String)
  imageBatches : List (List Nat)
  annotate : List String → AnnOut

/-- One value of the `annotations` JSON dictionary: a detection entry
(`boxes`/`labels`), a classification entry (`labels`), or the class-name
list. -/
inductive Entry where
  | det (boxes : List Box) (labels : List Nat)
  | clf (labels : List Nat)
  | names (cs : List String)
  deriving DecidableEq, Repr

/-- A Python `dict` with string keys, as an insertion-ordered association
list with unique keys. -/
abbrev AnnDict := List (String × Entry)

/-- Python dict write `d[k] = v`: overwrite the key in place if present,
append otherwise. -/
def pySet (d : AnnDict) (k : String) (v : Entry) : AnnDict :=
  if d.any (fun p => p.1 == k) then
    d.map (fun p => if p.1 = k then (k, v) else p)
  else d ++ [(k, v)]

/-- Lookup in the dict model. -/
def lookupDict (d : AnnDict) (k : String) : Option Entry :=
  (d.find? (fun p => p.1 == k)).map Prod.snd

/-- Model of `os.path.basename`: the part after the last path separator. -/
def basename (p : String) : String :=
  String.mk ((p.data.reverse.takeWhile (fun c => c ≠ '/')).reverse)

/-- Python `zip` of three lists (truncates to the shortest). -/
def zip3 (l1 : List α) (l2 : List β) (l3 : List γ) : List (α × β × γ) :=
  l1.zip (l2.zip l3)

/-- Python `list.index`: index of the first occurrence.  Callers guarantee
membership; on a missing element Python raises `ValueError`, and this total
model returns the list length. -/
def listIndex (x : String) : List String → Nat
  | [] => 0
  | c :: cs => if c = x then 0 else listIndex x cs + 1

/-- Insert into a strictly sorted list of naturals, keeping it strictly
sorted.  Helper for the `np.unique` model. -/
def insertSortedU (x : Nat) : List Nat → List Nat
  | [] => [x]
  | y :: ys =>
    if x < y then x :: y :: ys
    else if x = y then y :: ys
    else y :: insertSortedU x ys

/-- Modelled from the documented behaviour of the external library call
`np.unique`: the sorted list of the distinct values of `l`. -/
def npUnique (l : List Nat) : List Nat := l.foldr insertSortedU []

/-- Embedding of `save_det_annotations_to_json`: the JSON object it writes
(`{basename(path): {"boxes": .., "labels": ..}, .., "class_names": ..}`);
the file write itself is recorded as an event by `main`. -/
def save_det_annotations_to_json (image_paths : List String)
    (boxes_list : List (List Box)) (labels_list : List (List Nat))
    (class_names : List String) : AnnDict :=
  let ann :=
    (zip3 image_paths boxes_list labels_list).foldl
      (fun d t => pySet d (basename t.1) (Entry.det t.2.1 t.2.2)) []
  pySet ann "class_names" (Entry.names class_names)

/-- Embedding of `save_clf_annotations_to_json`: the JSON object it
writes. -/
def save_clf_annotations_to_json (image_paths : List String)
    (labels_list : List (List Nat)) (class_names : List String) : AnnDict :=
  let ann :=
    (image_paths.zip labels_list).foldl
      (fun d t => pySet d (basename t.1) (Entry.clf t.2)) []
  pySet ann "class_names" (Entry.names class_names)

/-- The module-level `prompt_generators` table (values are the wrapper
class names). -/
def prompt_generators : List (String × String) :=
  [("simple", "SimplePromptGenerator"),
   ("lm", "LMPromptGenerator"),
   ("tiny", "TinyLlamaLMPromptGenerator")]

/-- The module-level `synonym_generators` table. -/
def synonym_generators : List (String × String) :=
  [("llm", "LMSynonymGenerator"),
   ("wordnet", "WordNetSynonymGenerator")]

/-- The module-level `image_generators` table. -/
def image_generators : List (String × String) :=
  [("sdxl", "StableDiffusionImageGenerator"),
   ("sdxl-turbo", "StableDiffusionTurboImageGenerator"),
   ("sdxl-lightning", "StableDiffusionLightningImageGenerator")]

/-- The module-level `annotators` table. -/
def annotators : List (String × String) := [("owlv2", "OWLv2Annotator")]

/-- Python dict subscript on the wrapper tables; argparse `choices`
guarantees the key is present (a missing key would raise `KeyError`). -/
def lookupD (tbl : List (String × String)) (k : String) : String :=
  ((tbl.find? (fun p => p.1 == k)).map Prod.snd).getD ""

/-- Payload of a JSON file write. -/
inductive JPayload where
  | argsJson (a : Args)
  | prompts (ps : List (List String × String))
  | synonyms (d : List (String × List String))
  | annJson (d : AnnDict)
  deriving DecidableEq, Repr

/-- Externally visible effects of `main`: JSON file writes, image saves,
wrapper-class instantiations, and matplotlib figure saves (with the number
of rectangles drawn). -/
inductive Event where
  | writeJson (path : String) (payload : JPayload)
  | saveImage (path : String)
  | instantiateWrapper (cls : String)
  | saveFig (path : String) (numRects : Nat)
  deriving DecidableEq, Repr

/-- Inner image-saving loop of `main` over one yielded batch: saves each
image to `save_dir/image_{n}.jpg`, appends the path, increments the
counter. -/
def imageInnerLoop (save_dir : String) : List Nat → Nat → List String × Nat
  | [], n => ([], n)
  | _ :: imgs, n =>
    let p := save_dir ++ "/image_" ++ toString n ++ ".jpg"
    let r := imageInnerLoop save_dir imgs (n + 1)
    (p :: r.1, r.2)

/-- Image-saving loop of `main` over the batches yielded by
`generate_images`: returns the accumulated `image_paths` and the final
`num_generated_images`. -/
def imageLoop (save_dir : String) : List (List Nat) → Nat → List String × Nat
  | [], n => ([], n)
  | batch :: rest, n =>
    let r := imageInnerLoop save_dir batch n
    let r' := imageLoop save_dir rest r.2
    (r.1 ++ r'.1, r'.2)

/-- The batch split of the detection branch:
`[image_paths[i : i + bs] for i in range(0, len(image_paths), bs)]`. -/
def imageBatchesOf (l : List α) (bs : Nat) : List (List α) :=
  (List.range' 0 ((l.length + bs - 1) / bs) bs).map (fun i => (l.drop i).take bs)

/-- Structural-recursion formulation of `imageBatchesOf`; the fuel bounds
the list length. -/
def chunksAux (bs : Nat) : Nat → List α → List (List α)
  | 0, _ => []
  | _ + 1, [] => []
  | fuel + 1, x :: xs => ((x :: xs).take bs) :: chunksAux bs fuel ((x :: xs).drop bs)

/-- Detection annotation loop of `main`: over the enumerated image batches
it calls `annotate_batch`, extends `boxes_list`, appends per-image label
arrays, and saves one bounding-box visualization per image
(`bbox_{i * bs + j}.jpg`), drawing one rectangle per element of
`zip(boxes_batch[j], scores_batch[j], local_labels_batch[j])`.
(`scores_list` is also accumulated in the source but never read again.) -/
def detLoop (ann : List String → AnnOut) (bs : Nat) (bbox_dir : String) :
    List (List String) → Nat → List (List Box) × List (List Nat) × List Event
  | [], _ => ([], [], [])
  | batch :: rest, i =>
    let out := ann batch
    let rectsOf := fun j =>
      zip3 (out.boxes.getD j []) (out.scores.getD j []) (out.labels.getD j [])
    let labelsHere := (List.range batch.length).map
      (fun j => (rectsOf j).map (fun t => t.2.2))
    let figsHere := (List.range batch.length).map (fun j =>
      Event.saveFig (bbox_dir ++ "/bbox_" ++ toString (i * bs + j) ++ ".jpg")
        (rectsOf j).length)
    let r := detLoop ann bs bbox_dir rest (i + 1)
    (out.boxes ++ r.1, labelsHere ++ r.2.1, figsHere ++ r.2.2)

/-- Classification labels for one prompt's objects:
`np.unique([class_names.index(obj) for obj in prompt_objs])`. -/
def clfLabels (class_names : List String) (objs : List String) : List Nat :=
  npUnique (objs.map (fun obj => listIndex obj class_names))

/-- The `image_paths` list accumulated by `main`'s image loop. -/
def mainImagePaths (a : Args) (o : Oracles) : List String :=
  (imageLoop a.save_dir o.imageBatches 0).1

/-- The final `num_generated_images` counter of `main`'s image loop. -/
def mainNumGenerated (a : Args) (o : Oracles) : Nat :=
  (imageLoop a.save_dir o.imageBatches 0).2

/-- The `bboxes_visualization` subdirectory of the save directory. -/
def bboxDir (a : Args) : String := a.save_dir ++ "/bboxes_visualization"

/-- The detection branch's loop results for a given run. -/
def mainDetLoop (a : Args) (o : Oracles) :
    List (List Box) × List (List Nat) × List Event :=
  detLoop o.annotate a.batch_size_annot.toNat (bboxDir a)
    (imageBatchesOf (mainImagePaths a o) a.batch_size_annot.toNat) 0

/-- The `boxes_list` of the detection branch. -/
def mainBoxesList (a : Args) (o : Oracles) : List (List Box) :=
  (mainDetLoop a o).1

/-- The `labels_list` of the detection branch. -/
def mainLabelsList (a : Args) (o : Oracles) : List (List Nat) :=
  (mainDetLoop a o).2.1

/-- The bounding-box visualization saves of the detection branch. -/
def mainFigEvents (a : Args) (o : Oracles) : List Event :=
  (mainDetLoop a o).2.2

/-- The `labels_list` of the classification branch: one label array per prompt,
from the prompt's object list. -/
def clfLabelsList (a : Args) (o : Oracles) : List (List Nat) :=
  (o.generatedPrompts.map Prod.fst).map (clfLabels a.class_names)

/-- Embedding of `main` after `parse_args`/`check_args`: the ordered trace
of externally visible effects, with the pretrained-model computations
supplied by the oracles `o`.  The methods `save_prompts` and
`save_synonyms` are repository code outside the embedded file and are
modelled from the spec as writing their argument to the given path. -/
def main (a : Args) (o : Oracles) : List Event :=
  let save_dir := a.save_dir
  [Event.writeJson (save_dir ++ "/generation_args.json") (JPayload.argsJson a),
   Event.instantiateWrapper (lookupD prompt_generators a.prompt_generator),
   Event.writeJson (save_dir ++ "/prompts.json") (JPayload.prompts o.generatedPrompts)]
  ++ (if a.synonym_generator ≠ "none" then
        [Event.instantiateWrapper (lookupD synonym_generators a.synonym_generator),
         Event.writeJson (save_dir ++ "/synonyms.json") (JPayload.synonyms o.synonyms)]
      else [])
  ++ [Event.instantiateWrapper (lookupD image_generators a.image_generator)]
  ++ (mainImagePaths a o).map Event.saveImage
  ++ (if a.task = "classification" then
        [Event.writeJson (save_dir ++ "/annotations.json")
          (JPayload.annJson (save_clf_annotations_to_json (mainImagePaths a o)
            (clfLabelsList a o) a.class_names))]
      else
        Event.instantiateWrapper (lookupD annotators a.image_annotator)
          :: mainFigEvents a o
          ++ [Event.writeJson (save_dir ++ "/annotations.json")
              (JPayload.annJson (save_det_annotations_to_json (mainImagePaths a o)
                (mainBoxesList a o) (mainLabelsList a o) a.class_names))])

/-- The saved path of the `n`-th generated image. -/
def imgPath (save_dir : String) (n : Nat) : String :=
  save_dir ++ "/image_" ++ toString n ++ ".jpg"

/-- The saved path of the `k`-th bounding-box visualization. -/
def figPath (bbox_dir : String) (k : Nat) : String :=
  bbox_dir ++ "/bbox_" ++ toString k ++ ".jpg"

/-- Claim-side description of the bounding-box visualization files: one file
per annotated image, named by the image's global index `k`, with one
rectangle per detected box of image `k`. -/
def specBBoxFiles (bbox_dir : String) : Nat → List (List Box) → List (String × Nat)
  | _, [] => []
  | k, b :: rest => (figPath bbox_dir k, b.length) :: specBBoxFiles bbox_dir (k + 1) rest

/-- Projection selecting image-save events. -/
def getSaveImage : Event → Option String
  | Event.saveImage p => some p
  | _ => none

/-- Projection selecting figure-save events. -/
def getSaveFig : Event → Option (String × Nat)
  | Event.saveFig p n => some (p, n)
  | _ => none

/-- Whether an event writes a synonyms payload. -/
def isSynWrite : Event → Bool
  | Event.writeJson _ (JPayload.synonyms _) => true
  | _ => false

/-- The value stored by the last element of `ts` whose key is `k`:
in a loop of Python dict writes, later writes win. -/
def lastWrite (key : α → String) (ent : α → Entry) (ts : List α) (k : String) :
    Option Entry :=
  (ts.reverse.find? (fun t => key t == k)).map ent

/-- Well-formed annotator output on a batch: one entry per image, and
per-image `scores`/`labels` arrays as long as the `boxes` array. -/
def AnnWF (ann : List String → AnnOut) (batch : List String) : Prop :=
  (ann batch).boxes.length = batch.length ∧
  (ann batch).scores.length = batch.length ∧
  (ann batch).labels.length = batch.length ∧
  ∀ j, j < batch.length →
    ((ann batch).scores.getD j []).length = ((ann batch).boxes.getD j []).length ∧
    ((ann batch).labels.getD j []).length = ((ann batch).boxes.getD j []).length

instance (ann : List String → AnnOut) (batch : List String) :
    Decidable (AnnWF ann batch) := by
  unfold AnnWF; infer_instance

/-- A concrete parsed argument set (detection task) used to exercise the
model in closed statements. -/
def cfgDet : Args where
  save_dir := "out"
  task := "detection"
  class_names := ["cat", "dog"]
  prompts_number := 2
  num_objects_range := [1, 2]
  prompt_generator := "simple"
  image_generator := "sdxl"
  image_annotator := "owlv2"
  synonym_generator := "none"
  conf_threshold := 15 / 100
  use_tta := false
  use_image_tester := false
  image_tester_patience := 1
  lm_quantization := "none"
  batch_size_prompt := 64
  batch_size_annot := 2
  batch_size_image := 1
  device := "cpu"
  seed := 42

/-- The same argument set with the classification task. -/
def cfgClf : Args := { cfgDet with task := "classification" }

/-- The same argument set with a synonym generator enabled. -/
def cfgSyn : Args := { cfgDet with synonym_generator := "wordnet" }

/-- A concrete oracle assignment used to exercise the model in closed
statements. -/
def orcA : Oracles where
  generatedPrompts := [(["dog", "cat"], "a dog and a cat"), (["cat"], "a cat")]
  synonyms := [("cat", ["kitty"]), ("dog", ["puppy"])]
  imageBatches := [[0], [1]]
  annotate := fun ps =>
    { boxes := ps.map (fun _ => [((0 : ℚ), 0, 1, 1)]),
      scores := ps.map (fun _ => [9 / 10]),
      labels := ps.map (fun _ => [0]) }

theorem errIte (c : Prop) [Decidable c] (m : String) (rest : Except String Unit) :
    ((∃ msg, (if c then Except.error m else rest) = Except.error msg) ↔
      c ∨ ∃ msg, rest = Except.error msg) := by
  split_ifs with h <;> simp [h]

theorem okIffNoErr (e : Except String Unit) :
    e = Except.ok () ↔ ¬ ∃ msg, e = Except.error msg := by
  cases e with
  | error msg => simp
  | ok v => cases v; simp

/-- C1: `check_args` raises `ValueError` (returns an error) iff at least one
of the listed argument constraints is violated, and returns normally
otherwise. -/
theorem C1_check_args_raises_iff_violation (c : Bool) (a : Args) :
    ((∃ msg, check_args c a = Except.error msg) ↔ ArgConstraintViolated c a) ∧
    (check_args c a = Except.ok () ↔ ¬ ArgConstraintViolated c a) := by
  have herr : (∃ msg, check_args c a = Except.error msg) ↔
      ArgConstraintViolated c a := by
    unfold check_args ArgConstraintViolated
    rw [errIte, errIte, errIte, errIte, errIte, errIte, errIte, errIte,
      errIte, errIte, errIte, errIte]
    simp only [gt_iff_lt, not_and_or, not_le, Bool.not_eq_true,
      reduceCtorEq, exists_false, or_false]
    tauto
  exact ⟨herr, by rw [okIffNoErr, herr]⟩

theorem chunksAux_nil (bs : Nat) : ∀ fuel, chunksAux bs fuel ([] : List α) = []
  | 0 => rfl
  | _ + 1 => rfl

theorem numChunks_succ (bs n : Nat) (hbs : 1 ≤ bs) (hn : 1 ≤ n) :
    (n + bs - 1) / bs = ((n - bs) + bs - 1) / bs + 1 := by
  rcases le_or_lt n bs with h | h
  · have h1 : n + bs - 1 = (n - 1) + bs := by omega
    have h2 : (n - bs) + bs - 1 = bs - 1 := by omega
    rw [h1, h2, Nat.add_div_right _ hbs, Nat.div_eq_of_lt (by omega),
      Nat.div_eq_of_lt (by omega)]
  · have h1 : n + bs - 1 = (n - 1) + bs := by omega
    have h2 : (n - bs) + bs - 1 = n - 1 := by omega
    rw [h1, h2, Nat.add_div_right _ hbs]

theorem range'_step_shift (bs c s : Nat) :
    List.range' (s + bs) c bs = (List.range' s c bs).map (fun i => i + bs) := by
  rw [Nat.add_comm s bs, ← List.map_add_range']
  exact List.map_congr_left (fun i _ => Nat.add_comm bs i)

theorem imageBatchesOf_nil (bs : Nat) (hbs : 1 ≤ bs) :
    imageBatchesOf ([] : List α) bs = [] := by
  unfold imageBatchesOf
  have h : ((List.length ([] : List α)) + bs - 1) / bs = 0 :=
    Nat.div_eq_of_lt (by simp; omega)
  rw [h]
  rfl

theorem imageBatchesOf_eq_chunksAux (bs : Nat) (hbs : 1 ≤ bs) :
    ∀ (fuel : Nat) (l : List α), l.length ≤ fuel →
      imageBatchesOf l bs = chunksAux bs fuel l := by
  intro fuel
  induction fuel with
  | zero =>
    intro l hl
    have h0 : l = [] := List.eq_nil_of_length_eq_zero (Nat.le_zero.mp hl)
    subst h0
    rw [imageBatchesOf_nil bs hbs, chunksAux_nil]
  | succ fuel ih =>
    intro l hl
    cases l with
    | nil => rw [imageBatchesOf_nil bs hbs, chunksAux_nil]
    | cons x xs =>
      have hn : 1 ≤ (x :: xs).length := by simp
      have hdl : ((x :: xs).drop bs).length = (x :: xs).length - bs :=
        List.length_drop bs (x :: xs)
      simp only [chunksAux]
      rw [← ih ((x :: xs).drop bs)
        (by simp only [List.length_drop, List.length_cons] at hl ⊢; omega)]
      unfold imageBatchesOf
      rw [hdl, numChunks_succ bs (x :: xs).length hbs hn, List.range'_succ,
        range'_step_shift bs _ 0, List.map_cons, List.map_map]
      congr 1
      simp [Nat.add_comm]

theorem chunksAux_flatten (bs : Nat) (hbs : 1 ≤ bs) :
    ∀ (fuel : Nat) (l : List α), l.length ≤ fuel →
      (chunksAux bs fuel l).flatten = l := by
  intro fuel
  induction fuel with
  | zero =>
    intro l hl
    have h0 : l = [] := List.eq_nil_of_length_eq_zero (Nat.le_zero.mp hl)
    subst h0; rfl
  | succ fuel ih =>
    intro l hl
    cases l with
    | nil => rfl
    | cons x xs =>
      simp only [chunksAux, List.flatten_cons]
      rw [ih ((x :: xs).drop bs)
        (by simp only [List.length_drop, List.length_cons] at hl ⊢; omega),
        List.take_append_drop]

theorem chunksAux_mem (bs : Nat) (hbs : 1 ≤ bs) :
    ∀ (fuel : Nat) (l b : List α), b ∈ chunksAux bs fuel l →
      b ≠ [] ∧ b.length ≤ bs := by
  intro fuel
  induction fuel with
  | zero => intro l b hb; rw [chunksAux] at hb; cases hb
  | succ fuel ih =>
    intro l b hb
    cases l with
    | nil => rw [chunksAux_nil] at hb; cases hb
    | cons x xs =>
      simp only [chunksAux, List.mem_cons] at hb
      rcases hb with hb | hb
      · subst hb
        obtain ⟨k, rfl⟩ : ∃ k, bs = k + 1 := ⟨bs - 1, by omega⟩
        constructor
        · simp [List.take_succ_cons]
        · rw [List.length_take]; omega
      · exact ih _ b hb

theorem chunksAux_dropLast (bs : Nat) (hbs : 1 ≤ bs) :
    ∀ (fuel : Nat) (l b : List α), b ∈ (chunksAux bs fuel l).dropLast →
      b.length = bs := by
  intro fuel
  induction fuel with
  | zero => intro l b hb; rw [chunksAux] at hb; cases hb
  | succ fuel ih =>
    intro l b hb
    cases l with
    | nil => rw [chunksAux_nil] at hb; cases hb
    | cons x xs =>
      simp only [chunksAux] at hb
      cases hrest : chunksAux bs fuel ((x :: xs).drop bs) with
      | nil => rw [hrest] at hb; cases hb
      | cons r rs =>
        rw [hrest] at hb
        rw [List.dropLast_cons₂] at hb
        rcases List.mem_cons.mp hb with hb | hb
        · subst hb
          have hne : (x :: xs).drop bs ≠ [] := by
            intro hnil
            rw [hnil, chunksAux_nil] at hrest
            cases hrest
          have hlen : bs < (x :: xs).length := by
            by_contra hc
            exact hne (List.drop_eq_nil_of_le (by omega))
          rw [List.length_take]; omega
        · rw [← hrest] at hb
          exact ih _ b hb

/-- C6: for every list of image paths and every batch size ≥ 1, the batch
split of the detection branch partitions the list in order: the
concatenation of the batches is the original list, every batch is non-empty
of length at most the batch size, and every batch except possibly the last
has length exactly the batch size. -/
theorem C6_image_batches_partition (l : List α) (bs : Nat) (hbs : 1 ≤ bs) :
    (imageBatchesOf l bs).flatten = l ∧
    (∀ b ∈ imageBatchesOf l bs, b ≠ [] ∧ b.length ≤ bs) ∧
    (∀ b ∈ (imageBatchesOf l bs).dropLast, b.length = bs) := by
  rw [imageBatchesOf_eq_chunksAux bs hbs l.length l (le_refl _)]
  exact ⟨chunksAux_flatten bs hbs _ _ (le_refl _),
    fun b hb => chunksAux_mem bs hbs _ _ b hb,
    fun b hb => chunksAux_dropLast bs hbs _ _ b hb⟩

theorem C6_witness :
    (1 ≤ 2) ∧
    ((imageBatchesOf ["a", "b", "c"] 2).flatten = ["a", "b", "c"] ∧
     (∀ b ∈ imageBatchesOf ["a", "b", "c"] 2, b ≠ [] ∧ b.length ≤ 2) ∧
     (∀ b ∈ (imageBatchesOf ["a", "b", "c"] 2).dropLast, b.length = 2)) :=
  ⟨by decide, C6_image_batches_partition ["a", "b", "c"] 2 (by decide)⟩

theorem imageInnerLoop_spec (sd : String) (batch : List Nat) :
    ∀ n : Nat, imageInnerLoop sd batch n =
      ((List.range' n batch.length).map (imgPath sd), n + batch.length) := by
  induction batch with
  | nil => intro n; simp [imageInnerLoop]
  | cons i imgs ih =>
    intro n
    simp only [imageInnerLoop, ih (n + 1), List.length_cons, List.range'_succ,
      List.map_cons, imgPath, Prod.mk.injEq, List.cons.injEq]
    exact ⟨trivial, by omega⟩

theorem imageLoop_spec (sd : String) (batches : List (List Nat)) :
    ∀ n : Nat, imageLoop sd batches n =
      ((List.range' n ((batches.map List.length).sum)).map (imgPath sd),
        n + (batches.map List.length).sum) := by
  induction batches with
  | nil => intro n; simp [imageLoop]
  | cons b bs ih =>
    intro n
    simp only [imageLoop, imageInnerLoop_spec, ih, List.map_cons, List.sum_cons]
    rw [Nat.add_comm b.length ((bs.map List.length).sum),
      ← List.range'_append_1 n b.length, List.map_append, Prod.mk.injEq]
    exact ⟨rfl, by omega⟩

theorem saveImage_filter_of_map (ps : List String) :
    (ps.map Event.saveImage).filterMap getSaveImage = ps := by
  induction ps with
  | nil => rfl
  | cons p ps ih => simp [getSaveImage, ih]

theorem detLoop_events_saveFig (ann : List String → AnnOut) (bs : Nat)
    (bd : String) :
    ∀ (batches : List (List String)) (i : Nat),
      ∀ e ∈ (detLoop ann bs bd batches i).2.2, ∃ p n, e = Event.saveFig p n := by
  intro batches
  induction batches with
  | nil => intro i e he; cases he
  | cons b rest ih =>
    intro i e he
    simp only [detLoop, List.mem_append] at he
    rcases he with he | he
    · obtain ⟨j, _, rfl⟩ := List.mem_map.mp he
      exact ⟨_, _, rfl⟩
    · exact ih (i + 1) e he

/-- C9: the `n`-th generated image (counting across all yielded batches in
order) is saved to `save_dir/image_n.jpg` and `image_paths[n]` is exactly
that path; after the loop `num_generated_images` equals
`len(image_paths)`, so image file names are consecutive and
collision-free within a run. -/
theorem C9_image_paths_consecutive (a : Args) (o : Oracles) :
    mainImagePaths a o =
      (List.range ((o.imageBatches.map List.length).sum)).map (imgPath a.save_dir) ∧
    mainNumGenerated a o = (mainImagePaths a o).length ∧
    (main a o).filterMap getSaveImage = mainImagePaths a o := by
  refine ⟨?_, ?_, ?_⟩
  · unfold mainImagePaths
    rw [imageLoop_spec, List.range_eq_range']
  · unfold mainNumGenerated mainImagePaths
    rw [imageLoop_spec]
    simp
  · unfold main
    simp only [List.filterMap_append, List.filterMap_cons, getSaveImage,
      List.filterMap_nil, saveImage_filter_of_map]
    have hsyn : (if a.synonym_generator ≠ "none" then
        [Event.instantiateWrapper (lookupD synonym_generators a.synonym_generator),
         Event.writeJson (a.save_dir ++ "/synonyms.json") (JPayload.synonyms o.synonyms)]
      else []).filterMap getSaveImage = [] := by
      split_ifs <;> simp [getSaveImage]
    have hann : (if a.task = "classification" then
        [Event.writeJson (a.save_dir ++ "/annotations.json")
          (JPayload.annJson (save_clf_annotations_to_json (mainImagePaths a o)
            (clfLabelsList a o) a.class_names))]
      else
        Event.instantiateWrapper (lookupD annotators a.image_annotator)
          :: mainFigEvents a o
          ++ [Event.writeJson (a.save_dir ++ "/annotations.json")
              (JPayload.annJson (save_det_annotations_to_json (mainImagePaths a o)
                (mainBoxesList a o) (mainLabelsList a o) a.class_names))]).filterMap
        getSaveImage = [] := by
      split_ifs
      · simp [getSaveImage]
      · simp only [List.filterMap_cons, getSaveImage, List.filterMap_append]
        rw [List.filterMap_eq_nil_iff.mpr]
        · simp [getSaveImage]
        · intro e he
          obtain ⟨p, n, rfl⟩ :=
            detLoop_events_saveFig o.annotate a.batch_size_annot.toNat (bboxDir a)
              (imageBatchesOf (mainImagePaths a o) a.batch_size_annot.toNat) 0 e he
          rfl
    rw [hsyn, hann]
    simp

theorem mem_insertSortedU (x y : Nat) : ∀ l : List Nat,
    (y ∈ insertSortedU x l ↔ y = x ∨ y ∈ l) := by
  intro l
  induction l with
  | nil => simp [insertSortedU]
  | cons z zs ih =>
    simp only [insertSortedU]
    split_ifs with h1 h2
    · simp only [List.mem_cons]
    · subst h2
      simp only [List.mem_cons]; tauto
    · simp only [List.mem_cons, ih]
      tauto

theorem sorted_insertSortedU (x : Nat) : ∀ l : List Nat,
    l.Sorted (· < ·) → (insertSortedU x l).Sorted (· < ·) := by
  intro l
  induction l with
  | nil => intro _; simp [insertSortedU]
  | cons z zs ih =>
    intro hs
    rw [List.sorted_cons] at hs
    obtain ⟨hz, hzs⟩ := hs
    simp only [insertSortedU]
    split_ifs with h1 h2
    · rw [List.sorted_cons]
      refine ⟨?_, ?_⟩
      · intro b hb
        rcases List.mem_cons.mp hb with rfl | hb
        · exact h1
        · exact lt_trans h1 (hz b hb)
      · rw [List.sorted_cons]; exact ⟨hz, hzs⟩
    · rw [List.sorted_cons]; exact ⟨hz, hzs⟩
    · rw [List.sorted_cons]
      refine ⟨?_, ih hzs⟩
      intro b hb
      rcases (mem_insertSortedU x b zs).mp hb with rfl | hb
      · omega
      · exact hz b hb

theorem sorted_npUnique (l : List Nat) : (npUnique l).Sorted (· < ·) := by
  induction l with
  | nil => simp [npUnique]
  | cons x xs ih => exact sorted_insertSortedU x _ ih

theorem mem_npUnique (y : Nat) (l : List Nat) : y ∈ npUnique l ↔ y ∈ l := by
  induction l with
  | nil => simp [npUnique]
  | cons x xs ih =>
    show y ∈ insertSortedU x (npUnique xs) ↔ _
    rw [mem_insertSortedU]
    simp only [ih, List.mem_cons]

theorem listIndex_first (x : String) : ∀ cs : List String, x ∈ cs →
    cs.getD (listIndex x cs) "" = x ∧
    ∀ j, j < listIndex x cs → cs.getD j "" ≠ x := by
  intro cs
  induction cs with
  | nil => intro h; cases h
  | cons c rest ih =>
    intro hx
    by_cases hc : c = x
    · simp [listIndex, hc]
    · have hxr : x ∈ rest := by
        rcases List.mem_cons.mp hx with rfl | h
        · exact absurd rfl hc
        · exact h
      obtain ⟨h1, h2⟩ := ih hxr
      constructor
      · simp only [listIndex, if_neg hc, List.getD_cons_succ]
        exact h1
      · intro j hj
        cases j with
        | zero => simpa using hc
        | succ j =>
          simp only [listIndex, if_neg hc] at hj
          simpa using h2 j (by omega)

/-- C8: for the classification task, assuming every prompt object occurs in
`class_names`, the label array for a prompt is the sorted list of the
distinct first-occurrence indices of the prompt's objects within
`class_names`. -/
theorem C8_clf_labels_sorted_unique_indices (class_names objs : List String)
    (h : ∀ ob ∈ objs, ob ∈ class_names) :
    (clfLabels class_names objs).Sorted (· < ·) ∧
    (∀ x, x ∈ clfLabels class_names objs ↔
      x ∈ objs.map (fun ob => listIndex ob class_names)) ∧
    (∀ ob ∈ objs,
      class_names.getD (listIndex ob class_names) "" = ob ∧
      ∀ j, j < listIndex ob class_names → class_names.getD j "" ≠ ob) := by
  refine ⟨sorted_npUnique _, ?_, ?_⟩
  · intro x; exact mem_npUnique x _
  · intro ob hob; exact listIndex_first ob class_names (h ob hob)

theorem C8_witness :
    (∀ ob ∈ ["dog", "cat", "dog"], ob ∈ ["cat", "dog", "bird"]) ∧
    ((clfLabels ["cat", "dog", "bird"] ["dog", "cat", "dog"]).Sorted (· < ·) ∧
     (∀ x, x ∈ clfLabels ["cat", "dog", "bird"] ["dog", "cat", "dog"] ↔
        x ∈ ["dog", "cat", "dog"].map (fun ob => listIndex ob ["cat", "dog", "bird"])) ∧
     (∀ ob ∈ ["dog", "cat", "dog"],
        ["cat", "dog", "bird"].getD (listIndex ob ["cat", "dog", "bird"]) "" = ob ∧
        ∀ j, j < listIndex ob ["cat", "dog", "bird"] →
          ["cat", "dog", "bird"].getD j "" ≠ ob)) :=
  ⟨by decide, C8_clf_labels_sorted_unique_indices _ _ (by decide)⟩

theorem find?_ext (p q : α → Bool) (h : ∀ x, p x = q x) :
    ∀ l : List α, l.find? p = l.find? q := by
  intro l
  induction l with
  | nil => rfl
  | cons x xs ih => rw [List.find?_cons, List.find?_cons, h x, ih]

theorem lookupDict_pySet (d : AnnDict) (k k' : String) (v : Entry) :
    lookupDict (pySet d k v) k' = if k' = k then some v else lookupDict d k' := by
  unfold pySet lookupDict
  split_ifs with hany hk hk
  · subst hk
    rw [List.find?_map,
      find?_ext _ (fun p => p.1 == k')
        (fun p => by by_cases hp : p.1 = k' <;> simp [hp]) d]
    obtain ⟨p0, hp0mem, hp0⟩ := List.any_eq_true.mp hany
    cases hfind : d.find? (fun p => p.1 == k') with
    | none =>
      rw [List.find?_eq_none] at hfind
      exact absurd hp0 (hfind p0 hp0mem)
    | some p1 =>
      have hp1 : p1.1 = k' := by simpa using List.find?_some hfind
      simp [hp1]
  · have hk2 : ¬ k = k' := fun h => hk h.symm
    rw [List.find?_map,
      find?_ext _ (fun p => p.1 == k')
        (fun p => by by_cases hp : p.1 = k <;> simp [hp, hk, hk2]) d]
    cases hfind : d.find? (fun p => p.1 == k') with
    | none => simp
    | some p1 =>
      have hp1 : p1.1 = k' := by simpa using List.find?_some hfind
      have hp1k : ¬ p1.1 = k := by rw [hp1]; exact hk
      simp [hp1k]
  · subst hk
    rw [List.find?_append]
    have hnone : d.find? (fun p => p.1 == k') = none := by
      rw [List.find?_eq_none]
      intro p hp hpk
      exact hany (List.any_eq_true.mpr ⟨p, hp, hpk⟩)
    rw [hnone]
    simp
  · have hk2 : ¬ k = k' := fun h => hk h.symm
    rw [List.find?_append]
    have hone : ([(k, v)] : AnnDict).find? (fun p => p.1 == k') = none := by
      simp [hk2]
    rw [hone, Option.or_none]

theorem fold_pySet_lookup (key : α → String) (ent : α → Entry) :
    ∀ (ts : List α) (d : AnnDict) (k : String),
      lookupDict (ts.foldl (fun d t => pySet d (key t) (ent t)) d) k =
        (match lastWrite key ent ts k with
          | some e => some e
          | none => lookupDict d k) := by
  intro ts
  induction ts with
  | nil => intro d k; simp [lastWrite]
  | cons t ts ih =>
    intro d k
    rw [List.foldl_cons, ih]
    unfold lastWrite
    rw [List.reverse_cons, List.find?_append]
    cases hl : ts.reverse.find? (fun t => key t == k) with
    | some e0 => simp [lastWrite, hl]
    | none =>
      simp only [lastWrite, hl, Option.none_or, Option.map]
      rw [lookupDict_pySet]
      by_cases hkt : key t = k
      · simp [hkt]
      · have hkt2 : ¬ k = key t := fun h => hkt h.symm
        simp [hkt, hkt2]

/-- C10 counterexample: with image paths `["a", "b"]` but only one
detection annotation, `save_det_annotations_to_json` writes no entry for
the basename `"b"` although `"b"` is a basename of the given image paths
(Python `zip` truncates to the shortest input), refuting the claim's
`for all inputs ... one entry per distinct basename of the given image
paths`. -/
theorem C10_counterexample :
    lookupDict
      (save_det_annotations_to_json ["a", "b"] [[((0 : ℚ), 0, 1, 1)]] [[0]] ["x"])
      (basename "b") = none := by decide

/-- C10 (amended): both savers always map `"class_names"` to the full
class-name list; every other key holds the annotation entry (arrays as
plain lists) of the last zipped image path with that basename, so repeated
basenames and a basename equal to `"class_names"` overwrite earlier
entries; and whenever the annotation lists are at least as long as the path
list, every given image path has an entry under its basename. -/
theorem C10_annotations_dict (image_paths : List String)
    (boxes_list : List (List Box)) (labels_det : List (List Nat))
    (labels_clf : List (List Nat)) (class_names : List String) :
    lookupDict (save_det_annotations_to_json image_paths boxes_list labels_det
        class_names) "class_names" = some (Entry.names class_names) ∧
    lookupDict (save_clf_annotations_to_json image_paths labels_clf class_names)
        "class_names" = some (Entry.names class_names) ∧
    (∀ k, k ≠ "class_names" →
      lookupDict (save_det_annotations_to_json image_paths boxes_list labels_det
          class_names) k =
        lastWrite (fun t => basename t.1) (fun t => Entry.det t.2.1 t.2.2)
          (zip3 image_paths boxes_list labels_det) k) ∧
    (∀ k, k ≠ "class_names" →
      lookupDict (save_clf_annotations_to_json image_paths labels_clf class_names) k =
        lastWrite (fun t => basename t.1) (fun t => Entry.clf t.2)
          (image_paths.zip labels_clf) k) ∧
    (image_paths.length ≤ boxes_list.length →
      image_paths.length ≤ labels_det.length →
      ∀ p ∈ image_paths, ∃ e,
        lookupDict (save_det_annotations_to_json image_paths boxes_list labels_det
          class_names) (basename p) = some e) ∧
    (image_paths.length ≤ labels_clf.length →
      ∀ p ∈ image_paths, ∃ e,
        lookupDict (save_clf_annotations_to_json image_paths labels_clf class_names)
          (basename p) = some e) := by
  have hdetk : ∀ k, k ≠ "class_names" →
      lookupDict (save_det_annotations_to_json image_paths boxes_list labels_det
          class_names) k =
        lastWrite (fun t => basename t.1) (fun t => Entry.det t.2.1 t.2.2)
          (zip3 image_paths boxes_list labels_det) k := by
    intro k hk
    unfold save_det_annotations_to_json
    rw [lookupDict_pySet, if_neg hk, fold_pySet_lookup]
    cases hl : lastWrite (fun t => basename t.1) (fun t => Entry.det t.2.1 t.2.2)
        (zip3 image_paths boxes_list labels_det) k with
    | some e => rfl
    | none => rfl
  have hclfk : ∀ k, k ≠ "class_names" →
      lookupDict (save_clf_annotations_to_json image_paths labels_clf class_names) k =
        lastWrite (fun t => basename t.1) (fun t => Entry.clf t.2)
          (image_paths.zip labels_clf) k := by
    intro k hk
    unfold save_clf_annotations_to_json
    rw [lookupDict_pySet, if_neg hk, fold_pySet_lookup]
    cases hl : lastWrite (fun t => basename t.1) (fun t => Entry.clf t.2)
        (image_paths.zip labels_clf) k with
    | some e => rfl
    | none => rfl
  have hdetc : lookupDict (save_det_annotations_to_json image_paths boxes_list
      labels_det class_names) "class_names" = some (Entry.names class_names) := by
    unfold save_det_annotations_to_json
    rw [lookupDict_pySet, if_pos rfl]
  have hclfc : lookupDict (save_clf_annotations_to_json image_paths labels_clf
      class_names) "class_names" = some (Entry.names class_names) := by
    unfold save_clf_annotations_to_json
    rw [lookupDict_pySet, if_pos rfl]
  refine ⟨hdetc, hclfc, hdetk, hclfk, ?_, ?_⟩
  · intro hb hld p hp
    by_cases hcn : basename p = "class_names"
    · exact ⟨Entry.names class_names, by rw [hcn, hdetc]⟩
    · rw [hdetk _ hcn]
      have hmem : ∃ t ∈ zip3 image_paths boxes_list labels_det, t.1 = p := by
        have hfst : (zip3 image_paths boxes_list labels_det).map Prod.fst =
            image_paths := by
          unfold zip3
          apply List.map_fst_zip
          rw [List.length_zip]
          omega
        rw [← hfst] at hp
        obtain ⟨t, ht, htp⟩ := List.mem_map.mp hp
        exact ⟨t, ht, htp⟩
      obtain ⟨t, ht, htp⟩ := hmem
      have hsome : ((zip3 image_paths boxes_list labels_det).reverse.find?
          (fun t => basename t.1 == basename p)).isSome := by
        rw [List.find?_isSome]
        exact ⟨t, List.mem_reverse.mpr ht, by rw [htp]; exact beq_self_eq_true _⟩
      obtain ⟨t1, ht1⟩ := Option.isSome_iff_exists.mp hsome
      exact ⟨Entry.det t1.2.1 t1.2.2, by unfold lastWrite; rw [ht1]; rfl⟩
  · intro hl p hp
    by_cases hcn : basename p = "class_names"
    · exact ⟨Entry.names class_names, by rw [hcn, hclfc]⟩
    · rw [hclfk _ hcn]
      have hmem : ∃ t ∈ image_paths.zip labels_clf, t.1 = p := by
        have hfst : (image_paths.zip labels_clf).map Prod.fst = image_paths :=
          List.map_fst_zip _ _ hl
        rw [← hfst] at hp
        obtain ⟨t, ht, htp⟩ := List.mem_map.mp hp
        exact ⟨t, ht, htp⟩
      obtain ⟨t, ht, htp⟩ := hmem
      have hsome : ((image_paths.zip labels_clf).reverse.find?
          (fun t => basename t.1 == basename p)).isSome := by
        rw [List.find?_isSome]
        exact ⟨t, List.mem_reverse.mpr ht, by rw [htp]; exact beq_self_eq_true _⟩
      obtain ⟨t1, ht1⟩ := Option.isSome_iff_exists.mp hsome
      exact ⟨Entry.clf t1.2, by unfold lastWrite; rw [ht1]; rfl⟩

theorem C10_witness :
    lookupDict (save_det_annotations_to_json ["d/a"] [[((0 : ℚ), 0, 1, 1)]] [[0]]
      ["x"]) "class_names" = some (Entry.names ["x"]) ∧
    lookupDict (save_clf_annotations_to_json ["d/a"] [[1]] ["x"]) "class_names" =
      some (Entry.names ["x"]) ∧
    lookupDict (save_det_annotations_to_json ["d/a"] [[((0 : ℚ), 0, 1, 1)]] [[0]]
        ["x"]) "a" =
      lastWrite (fun t => basename t.1) (fun t => Entry.det t.2.1 t.2.2)
        (zip3 ["d/a"] [[((0 : ℚ), 0, 1, 1)]] [[0]]) "a" ∧
    lookupDict (save_clf_annotations_to_json ["d/a"] [[1]] ["x"]) "a" =
      lastWrite (fun t => basename t.1) (fun t => Entry.clf t.2)
        (["d/a"].zip [[1]]) "a" ∧
    (∃ e, lookupDict (save_det_annotations_to_json ["d/a"] [[((0 : ℚ), 0, 1, 1)]]
      [[0]] ["x"]) (basename "d/a") = some e) ∧
    (∃ e, lookupDict (save_clf_annotations_to_json ["d/a"] [[1]] ["x"])
      (basename "d/a") = some e) := by
  obtain ⟨h1, h2, h3, h4, h5, h6⟩ :=
    C10_annotations_dict ["d/a"] [[((0 : ℚ), 0, 1, 1)]] [[0]] [[1]] ["x"]
  exact ⟨h1, h2, h3 "a" (by decide), h4 "a" (by decide),
    h5 (by decide) (by decide) "d/a" (by decide),
    h6 (by decide) "d/a" (by decide)⟩

theorem save_det_lookup_classnames (ps : List String) (bl : List (List Box))
    (ll : List (List Nat)) (cs : List String) :
    lookupDict (save_det_annotations_to_json ps bl ll cs) "class_names" =
      some (Entry.names cs) := by
  unfold save_det_annotations_to_json
  rw [lookupDict_pySet, if_pos rfl]

theorem save_clf_lookup_classnames (ps : List String) (ll : List (List Nat))
    (cs : List String) :
    lookupDict (save_clf_annotations_to_json ps ll cs) "class_names" =
      some (Entry.names cs) := by
  unfold save_clf_annotations_to_json
  rw [lookupDict_pySet, if_pos rfl]

/-- C3 counterexample: a run with the default `synonym_generator = "none"`
never writes a synonyms payload, refuting `...is saved to synonyms.json
regardless of the chosen configuration`. -/
theorem C3_counterexample :
    (main cfgDet orcA).all (fun e => !(isSynWrite e)) = true := by decide

/-- C3 (amended): the synonym-generation stage runs iff
`synonym_generator ≠ "none"` (the default is `"none"`); when it runs, the
selected synonym generator is instantiated and its result is saved to
`synonyms.json`; otherwise no synonyms payload is written at all. -/
theorem C3_synonyms_saved_iff_enabled (a : Args) (o : Oracles) :
    (a.synonym_generator = "none" →
      ∀ p d, Event.writeJson p (JPayload.synonyms d) ∉ main a o) ∧
    (a.synonym_generator ≠ "none" →
      Event.instantiateWrapper (lookupD synonym_generators a.synonym_generator)
          ∈ main a o ∧
      Event.writeJson (a.save_dir ++ "/synonyms.json")
          (JPayload.synonyms o.synonyms) ∈ main a o) := by
  constructor
  · intro hnone p d hmem
    rw [main, hnone] at hmem
    simp only [ne_eq, not_true_eq_false, if_false, List.append_nil] at hmem
    simp only [List.mem_append, List.mem_cons, List.not_mem_nil, List.mem_map,
      List.mem_singleton, Event.writeJson.injEq, reduceCtorEq, and_false,
      false_and, exists_false, or_false, false_or] at hmem
    split at hmem
    · simp at hmem
    · simp only [List.cons_append, List.mem_cons, List.mem_append,
        List.mem_singleton, Event.writeJson.injEq, reduceCtorEq, and_false,
        false_and, or_false, false_or] at hmem
      unfold mainFigEvents mainDetLoop at hmem
      rcases hmem with hmem | hmem
      · obtain ⟨q, n, he⟩ := detLoop_events_saveFig o.annotate
          a.batch_size_annot.toNat (bboxDir a)
          (imageBatchesOf (mainImagePaths a o) a.batch_size_annot.toNat) 0 _ hmem
        cases he
      · simp at hmem
  · intro hsome
    constructor
    · rw [main]
      simp [hsome]
    · rw [main]
      simp [hsome]

theorem C3_witness :
    Event.writeJson ("out" ++ "/synonyms.json") (JPayload.synonyms orcA.synonyms)
        ∉ main cfgDet orcA ∧
    Event.instantiateWrapper (lookupD synonym_generators cfgSyn.synonym_generator)
        ∈ main cfgSyn orcA ∧
    Event.writeJson (cfgSyn.save_dir ++ "/synonyms.json")
        (JPayload.synonyms orcA.synonyms) ∈ main cfgSyn orcA :=
  ⟨(C3_synonyms_saved_iff_enabled cfgDet orcA).1 (by decide) _ _,
   ((C3_synonyms_saved_iff_enabled cfgSyn orcA).2 (by decide)).1,
   ((C3_synonyms_saved_iff_enabled cfgSyn orcA).2 (by decide)).2⟩

/-- C4 counterexample: in a classification run the CLI choice
`image_annotator = "owlv2"` does not lead to `OWLv2Annotator` being
instantiated, refuting the unconditional `main instantiates that class`. -/
theorem C4_counterexample :
    Event.instantiateWrapper "OWLv2Annotator" ∉ main cfgClf orcA := by decide

/-- C4 (amended): each wrapper table maps the CLI choice to exactly the
claimed interchangeable wrapper class, and `main` instantiates the selected
class whenever the stage runs: the prompt and image generators always, the
synonym generator when `synonym_generator ≠ "none"`, the annotator when the
task is not classification. -/
theorem C4_stage_wrapper_selection :
    lookupD prompt_generators "simple" = "SimplePromptGenerator" ∧
    lookupD prompt_generators "lm" = "LMPromptGenerator" ∧
    lookupD prompt_generators "tiny" = "TinyLlamaLMPromptGenerator" ∧
    lookupD image_generators "sdxl" = "StableDiffusionImageGenerator" ∧
    lookupD image_generators "sdxl-turbo" = "StableDiffusionTurboImageGenerator" ∧
    lookupD image_generators "sdxl-lightning" =
      "StableDiffusionLightningImageGenerator" ∧
    lookupD annotators "owlv2" = "OWLv2Annotator" ∧
    lookupD synonym_generators "llm" = "LMSynonymGenerator" ∧
    lookupD synonym_generators "wordnet" = "WordNetSynonymGenerator" ∧
    ∀ (a : Args) (o : Oracles),
      Event.instantiateWrapper (lookupD prompt_generators a.prompt_generator)
          ∈ main a o ∧
      Event.instantiateWrapper (lookupD image_generators a.image_generator)
          ∈ main a o ∧
      (a.synonym_generator ≠ "none" →
        Event.instantiateWrapper (lookupD synonym_generators a.synonym_generator)
          ∈ main a o) ∧
      (a.task ≠ "classification" →
        Event.instantiateWrapper (lookupD annotators a.image_annotator)
          ∈ main a o) := by
  refine ⟨rfl, rfl, rfl, rfl, rfl, rfl, rfl, rfl, rfl, ?_⟩
  intro a o
  refine ⟨?_, ?_, ?_, ?_⟩
  · rw [main]; simp
  · rw [main]; simp
  · intro h; rw [main]; simp [h]
  · intro h; rw [main]; simp [h]

theorem C4_witness :
    Event.instantiateWrapper (lookupD prompt_generators cfgDet.prompt_generator)
        ∈ main cfgDet orcA ∧
    Event.instantiateWrapper (lookupD image_generators cfgDet.image_generator)
        ∈ main cfgDet orcA ∧
    Event.instantiateWrapper (lookupD synonym_generators cfgSyn.synonym_generator)
        ∈ main cfgSyn orcA ∧
    Event.instantiateWrapper (lookupD annotators cfgDet.image_annotator)
        ∈ main cfgDet orcA := by
  obtain ⟨-, -, -, -, -, -, -, -, -, hmain⟩ := C4_stage_wrapper_selection
  obtain ⟨h1, h2, -, h4⟩ := hmain cfgDet orcA
  obtain ⟨-, -, h3, -⟩ := hmain cfgSyn orcA
  exact ⟨h1, h2, h3 (by decide), h4 (by decide)⟩

/-- C5: every run of `main` writes `generation_args.json` holding the
parsed arguments, `prompts.json` holding the generated prompts, each
generated image as a `.jpg` file under `save_dir`, and `annotations.json`
whose JSON object carries the class-name list together with the per-image
entries (whose exact contents are characterized with C10). -/
theorem C5_serialization (a : Args) (o : Oracles) :
    Event.writeJson (a.save_dir ++ "/generation_args.json") (JPayload.argsJson a)
        ∈ main a o ∧
    Event.writeJson (a.save_dir ++ "/prompts.json")
        (JPayload.prompts o.generatedPrompts) ∈ main a o ∧
    (∀ p ∈ mainImagePaths a o,
      Event.saveImage p ∈ main a o ∧ ∃ stem, p = stem ++ ".jpg") ∧
    (∃ d, Event.writeJson (a.save_dir ++ "/annotations.json") (JPayload.annJson d)
        ∈ main a o ∧
      lookupDict d "class_names" = some (Entry.names a.class_names)) := by
  refine ⟨?_, ?_, ?_, ?_⟩
  · rw [main]; simp
  · rw [main]; simp
  · intro p hp
    constructor
    · rw [main]
      simp only [List.mem_append, List.mem_map]
      exact Or.inl (Or.inr ⟨p, hp, rfl⟩)
    · unfold mainImagePaths at hp
      rw [imageLoop_spec] at hp
      obtain ⟨n, _, rfl⟩ := List.mem_map.mp hp
      exact ⟨a.save_dir ++ "/image_" ++ toString n, rfl⟩
  · by_cases htask : a.task = "classification"
    · refine ⟨save_clf_annotations_to_json (mainImagePaths a o) (clfLabelsList a o)
        a.class_names, ?_, save_clf_lookup_classnames _ _ _⟩
      rw [main]; simp [htask]
    · refine ⟨save_det_annotations_to_json (mainImagePaths a o) (mainBoxesList a o)
        (mainLabelsList a o) a.class_names, ?_, save_det_lookup_classnames _ _ _ _⟩
      rw [main]; simp [htask]

theorem C5_witness :
    Event.writeJson (cfgDet.save_dir ++ "/generation_args.json")
        (JPayload.argsJson cfgDet) ∈ main cfgDet orcA ∧
    Event.writeJson (cfgDet.save_dir ++ "/prompts.json")
        (JPayload.prompts orcA.generatedPrompts) ∈ main cfgDet orcA ∧
    (Event.saveImage "out/image_0.jpg" ∈ main cfgDet orcA ∧
      ∃ stem, "out/image_0.jpg" = stem ++ ".jpg") ∧
    (∃ d, Event.writeJson (cfgDet.save_dir ++ "/annotations.json")
        (JPayload.annJson d) ∈ main cfgDet orcA ∧
      lookupDict d "class_names" = some (Entry.names cfgDet.class_names)) := by
  obtain ⟨h1, h2, h3, h4⟩ := C5_serialization cfgDet orcA
  exact ⟨h1, h2, h3 "out/image_0.jpg" (by decide), h4⟩

theorem detLoop_boxes (ann : List String → AnnOut) (bs : Nat) (bd : String) :
    ∀ (batches : List (List String)) (i : Nat),
      (detLoop ann bs bd batches i).1 =
        (batches.map (fun b => (ann b).boxes)).flatten := by
  intro batches
  induction batches with
  | nil => intro i; rfl
  | cons b rest ih =>
    intro i
    simp only [detLoop, List.map_cons, List.flatten_cons, ih (i + 1)]

theorem lookupD_pg_ne_owl (s : String) (h : s ∈ ["simple", "lm", "tiny"]) :
    lookupD prompt_generators s ≠ "OWLv2Annotator" := by
  simp only [List.mem_cons, List.not_mem_nil, or_false] at h
  rcases h with rfl | rfl | rfl <;> decide

theorem lookupD_ig_ne_owl (s : String)
    (h : s ∈ ["sdxl", "sdxl-turbo", "sdxl-lightning"]) :
    lookupD image_generators s ≠ "OWLv2Annotator" := by
  simp only [List.mem_cons, List.not_mem_nil, or_false] at h
  rcases h with rfl | rfl | rfl <;> decide

theorem lookupD_sg_ne_owl (s : String) (h : s ∈ ["none", "llm", "wordnet"]) :
    lookupD synonym_generators s ≠ "OWLv2Annotator" := by
  simp only [List.mem_cons, List.not_mem_nil, or_false] at h
  rcases h with rfl | rfl | rfl <;> decide

/-- C2 counterexample: in a classification run the OWLv2 annotator wrapper
is never instantiated (the labels come from the prompt objects instead),
refuting `...for both task values 'detection' and 'classification'`. -/
theorem C2_counterexample :
    Event.instantiateWrapper "OWLv2Annotator" ∉ main cfgClf orcA ∧
    Event.writeJson (cfgClf.save_dir ++ "/annotations.json")
      (JPayload.annJson (save_clf_annotations_to_json (mainImagePaths cfgClf orcA)
        (clfLabelsList cfgClf orcA) cfgClf.class_names)) ∈ main cfgClf orcA := by
  constructor <;> decide

/-- C2 (amended): for the detection task, `main` instantiates the OWLv2
annotator and serializes to `annotations.json` exactly the dictionary built
from the concatenated `annotate_batch` outputs; for the classification
task the annotator is never instantiated and the serialized labels are
computed from the prompt objects' indices in `class_names`. -/
theorem C2_annotator_usage (a : Args) (o : Oracles)
    (hpg : a.prompt_generator ∈ ["simple", "lm", "tiny"])
    (hig : a.image_generator ∈ ["sdxl", "sdxl-turbo", "sdxl-lightning"])
    (hsg : a.synonym_generator ∈ ["none", "llm", "wordnet"])
    (hia : a.image_annotator = "owlv2") :
    (a.task = "classification" →
      Event.writeJson (a.save_dir ++ "/annotations.json")
        (JPayload.annJson (save_clf_annotations_to_json (mainImagePaths a o)
          (clfLabelsList a o) a.class_names)) ∈ main a o ∧
      Event.instantiateWrapper "OWLv2Annotator" ∉ main a o) ∧
    (a.task ≠ "classification" →
      Event.instantiateWrapper "OWLv2Annotator" ∈ main a o ∧
      Event.writeJson (a.save_dir ++ "/annotations.json")
        (JPayload.annJson (save_det_annotations_to_json (mainImagePaths a o)
          (mainBoxesList a o) (mainLabelsList a o) a.class_names)) ∈ main a o ∧
      mainBoxesList a o =
        ((imageBatchesOf (mainImagePaths a o) a.batch_size_annot.toNat).map
          (fun b => (o.annotate b).boxes)).flatten) := by
  constructor
  · intro htask
    constructor
    · rw [main]; simp [htask]
    · intro hmem
      rw [main, htask] at hmem
      rw [if_pos rfl] at hmem
      split_ifs at hmem <;>
        simp [Ne.symm (lookupD_pg_ne_owl _ hpg),
          Ne.symm (lookupD_ig_ne_owl _ hig),
          Ne.symm (lookupD_sg_ne_owl _ hsg)] at hmem
  · intro htask
    refine ⟨?_, ?_, ?_⟩
    · have : lookupD annotators a.image_annotator = "OWLv2Annotator" := by
        rw [hia]; rfl
      rw [main]
      simp [htask, ← this]
    · rw [main]; simp [htask]
    · unfold mainBoxesList mainDetLoop
      rw [detLoop_boxes]

theorem C2_witness :
    (cfgDet.prompt_generator ∈ ["simple", "lm", "tiny"] ∧
     cfgDet.image_generator ∈ ["sdxl", "sdxl-turbo", "sdxl-lightning"] ∧
     cfgDet.synonym_generator ∈ ["none", "llm", "wordnet"] ∧
     cfgDet.image_annotator = "owlv2" ∧ cfgDet.task ≠ "classification") ∧
    (Event.instantiateWrapper "OWLv2Annotator" ∈ main cfgDet orcA ∧
     Event.writeJson (cfgDet.save_dir ++ "/annotations.json")
       (JPayload.annJson (save_det_annotations_to_json (mainImagePaths cfgDet orcA)
         (mainBoxesList cfgDet orcA) (mainLabelsList cfgDet orcA)
         cfgDet.class_names)) ∈ main cfgDet orcA ∧
     mainBoxesList cfgDet orcA =
       ((imageBatchesOf (mainImagePaths cfgDet orcA)
         cfgDet.batch_size_annot.toNat).map
           (fun b => (orcA.annotate b).boxes)).flatten) :=
  ⟨⟨by decide, by decide, by decide, by decide, by decide⟩,
    (C2_annotator_usage cfgDet orcA (by decide) (by decide) (by decide)
      (by decide)).2 (by decide)⟩

theorem zip3_length (l1 : List α) (l2 : List β) (l3 : List γ) :
    (zip3 l1 l2 l3).length = min l1.length (min l2.length l3.length) := by
  unfold zip3
  rw [List.length_zip, List.length_zip]

theorem specBBoxFiles_append (bd : String) :
    ∀ (l1 l2 : List (List Box)) (k : Nat),
      specBBoxFiles bd k (l1 ++ l2) =
        specBBoxFiles bd k l1 ++ specBBoxFiles bd (k + l1.length) l2 := by
  intro l1
  induction l1 with
  | nil => intro l2 k; simp [specBBoxFiles]
  | cons b rest ih =>
    intro l2 k
    have hoff : k + (rest.length + 1) = (k + 1) + rest.length := by omega
    simp only [List.cons_append, specBBoxFiles, List.length_cons, hoff,
      List.append_eq]
    rw [ih]

theorem filterMap_getSaveFig_map (l : List Nat) (p : Nat → String)
    (c : Nat → Nat) :
    (l.map (fun j => Event.saveFig (p j) (c j))).filterMap getSaveFig =
      l.map (fun j => (p j, c j)) := by
  induction l with
  | nil => rfl
  | cons j js ih => simp [getSaveFig, ih]

theorem range_map_spec (bd : String) :
    ∀ (bl : List (List Box)) (k0 : Nat),
      (List.range bl.length).map
        (fun j => (bd ++ "/bbox_" ++ toString (k0 + j) ++ ".jpg",
          (bl.getD j []).length)) = specBBoxFiles bd k0 bl := by
  intro bl
  induction bl with
  | nil => intro k0; rfl
  | cons b rest ih =>
    intro k0
    rw [List.length_cons, List.range_succ_eq_map, List.map_cons, List.map_map]
    have htail : (List.range rest.length).map
        ((fun j => (bd ++ "/bbox_" ++ toString (k0 + j) ++ ".jpg",
          ((b :: rest).getD j []).length)) ∘ Nat.succ) =
        specBBoxFiles bd (k0 + 1) rest := by
      rw [← ih (k0 + 1)]
      apply List.map_congr_left
      intro j _
      simp only [Function.comp_apply, Nat.succ_eq_add_one, List.getD_cons_succ]
      have hoff : k0 + (j + 1) = (k0 + 1) + j := by omega
      rw [hoff]
    rw [htail]
    simp only [Nat.add_zero, List.getD_cons_zero, specBBoxFiles, figPath]

theorem detLoop_figs_chunks (ann : List String → AnnOut) (bs : Nat)
    (hbs : 1 ≤ bs) (bd : String) :
    ∀ (fuel : Nat) (l : List String) (i : Nat), l.length ≤ fuel →
      (∀ b ∈ chunksAux bs fuel l, AnnWF ann b) →
      ((detLoop ann bs bd (chunksAux bs fuel l) i).2.2).filterMap getSaveFig =
        specBBoxFiles bd (i * bs) ((detLoop ann bs bd (chunksAux bs fuel l) i).1) ∧
      ((detLoop ann bs bd (chunksAux bs fuel l) i).1).length = l.length := by
  intro fuel
  induction fuel with
  | zero =>
    intro l i hl _
    have h0 : l = [] := List.eq_nil_of_length_eq_zero (Nat.le_zero.mp hl)
    subst h0
    rw [chunksAux]
    exact ⟨rfl, rfl⟩
  | succ fuel ih =>
    intro l i hl hwf
    cases l with
    | nil => rw [chunksAux_nil]; exact ⟨rfl, rfl⟩
    | cons x xs =>
      have hchunks : chunksAux bs (fuel + 1) (x :: xs) =
          ((x :: xs).take bs) :: chunksAux bs fuel ((x :: xs).drop bs) := rfl
      have hb0mem : (x :: xs).take bs ∈ chunksAux bs (fuel + 1) (x :: xs) := by
        rw [hchunks]; exact List.mem_cons_self _ _
      obtain ⟨hbl, hsl, hll, hper⟩ := hwf _ hb0mem
      have hrest : ∀ b ∈ chunksAux bs fuel ((x :: xs).drop bs), AnnWF ann b :=
        fun b hb => hwf b (by rw [hchunks]; exact List.mem_cons_of_mem _ hb)
      have hlen_drop : ((x :: xs).drop bs).length ≤ fuel := by
        simp only [List.length_drop, List.length_cons] at hl ⊢; omega
      obtain ⟨ihfig, ihlen⟩ := ih ((x :: xs).drop bs) (i + 1) hlen_drop hrest
      have htakelen : ((x :: xs).take bs).length = min bs (x :: xs).length :=
        List.length_take bs (x :: xs)
      rw [hchunks]
      simp only [detLoop]
      constructor
      · rw [List.filterMap_append, filterMap_getSaveFig_map, ihfig,
          specBBoxFiles_append]
        have hcnt : ∀ j ∈ List.range ((x :: xs).take bs).length,
            (bd ++ "/bbox_" ++ toString (i * bs + j) ++ ".jpg",
              (zip3 ((ann ((x :: xs).take bs)).boxes.getD j [])
                ((ann ((x :: xs).take bs)).scores.getD j [])
                ((ann ((x :: xs).take bs)).labels.getD j [])).length) =
            (bd ++ "/bbox_" ++ toString (i * bs + j) ++ ".jpg",
              ((ann ((x :: xs).take bs)).boxes.getD j []).length) := by
          intro j hj
          have hjlt : j < ((x :: xs).take bs).length := List.mem_range.mp hj
          obtain ⟨hs, hlb⟩ := hper j hjlt
          rw [zip3_length, hs, hlb]
          simp [min_self]
        rw [List.map_congr_left hcnt, ← hbl, range_map_spec]
        congr 1
        rcases le_or_lt bs (x :: xs).length with hcase | hcase
        · have : (ann ((x :: xs).take bs)).boxes.length = bs := by
            rw [hbl, htakelen]; omega
          rw [this, Nat.succ_mul]
        · have hnil : (x :: xs).drop bs = [] :=
            List.drop_eq_nil_of_le (by omega)
          rw [hnil, chunksAux_nil] at ihlen ⊢
          have : (detLoop ann bs bd ([] : List (List String)) (i + 1)).1 = [] :=
            rfl
          rw [this]
          rfl
      · rw [List.length_append, hbl, ihlen, htakelen]
        simp only [List.length_drop, List.length_cons]
        omega

/-- C7: for every detection-task run with batch size ≥ 1 and well-formed
annotator outputs, the figure saves of `main` are exactly one
`bbox_{k}.jpg` file in the `bboxes_visualization` subdirectory per
annotated image, where `k` is the image's global index, with one rectangle
per detected box of image `k` (the `k`-th entry of `boxes_list`, whose
count equals the number of images). -/
theorem C7_bbox_visualizations (a : Args) (o : Oracles)
    (htask : a.task ≠ "classification")
    (hbs : 1 ≤ a.batch_size_annot.toNat)
    (hwf : ∀ b ∈ imageBatchesOf (mainImagePaths a o) a.batch_size_annot.toNat,
      AnnWF o.annotate b) :
    (main a o).filterMap getSaveFig =
      specBBoxFiles (bboxDir a) 0 (mainBoxesList a o) ∧
    (mainBoxesList a o).length = (mainImagePaths a o).length := by
  have hchunks := imageBatchesOf_eq_chunksAux a.batch_size_annot.toNat hbs
    (mainImagePaths a o).length (mainImagePaths a o) (le_refl _)
  have hwf' : ∀ b ∈ chunksAux a.batch_size_annot.toNat
      (mainImagePaths a o).length (mainImagePaths a o), AnnWF o.annotate b := by
    rw [← hchunks]; exact hwf
  obtain ⟨hfig, hlen⟩ := detLoop_figs_chunks o.annotate a.batch_size_annot.toNat
    hbs (bboxDir a) (mainImagePaths a o).length (mainImagePaths a o) 0
    (le_refl _) hwf'
  rw [← hchunks] at hfig hlen
  constructor
  · rw [main]
    simp only [List.filterMap_append, List.filterMap_cons, getSaveFig,
      List.filterMap_nil]
    have hsyn : (if a.synonym_generator ≠ "none" then
        [Event.instantiateWrapper (lookupD synonym_generators a.synonym_generator),
         Event.writeJson (a.save_dir ++ "/synonyms.json")
           (JPayload.synonyms o.synonyms)]
      else []).filterMap getSaveFig = [] := by
      split_ifs <;> simp [getSaveFig]
    have himg : ((mainImagePaths a o).map Event.saveImage).filterMap
        getSaveFig = [] := by
      rw [List.filterMap_eq_nil_iff]
      intro e he
      obtain ⟨q, _, rfl⟩ := List.mem_map.mp he
      rfl
    have hann : (if a.task = "classification" then
        [Event.writeJson (a.save_dir ++ "/annotations.json")
          (JPayload.annJson (save_clf_annotations_to_json (mainImagePaths a o)
            (clfLabelsList a o) a.class_names))]
      else
        Event.instantiateWrapper (lookupD annotators a.image_annotator)
          :: mainFigEvents a o
          ++ [Event.writeJson (a.save_dir ++ "/annotations.json")
              (JPayload.annJson (save_det_annotations_to_json (mainImagePaths a o)
                (mainBoxesList a o) (mainLabelsList a o) a.class_names))]).filterMap
        getSaveFig = specBBoxFiles (bboxDir a) 0 (mainBoxesList a o) := by
      rw [if_neg htask]
      simp only [List.filterMap_cons, getSaveFig, List.filterMap_append,
        List.filterMap_nil]
      unfold mainFigEvents mainBoxesList mainDetLoop
      rw [hfig]
      simp [Nat.zero_mul]
    rw [hsyn, himg, hann]
    simp
  · unfold mainBoxesList mainDetLoop
    exact hlen

theorem C7_witness :
    (cfgDet.task ≠ "classification" ∧ 1 ≤ cfgDet.batch_size_annot.toNat ∧
     (∀ b ∈ imageBatchesOf (mainImagePaths cfgDet orcA)
        cfgDet.batch_size_annot.toNat, AnnWF orcA.annotate b)) ∧
    ((main cfgDet orcA).filterMap getSaveFig =
       specBBoxFiles (bboxDir cfgDet) 0 (mainBoxesList cfgDet orcA) ∧
     (mainBoxesList cfgDet orcA).length = (mainImagePaths cfgDet orcA).length) :=
  ⟨⟨by decide, by decide, by decide⟩,
    C7_bbox_visualizations cfgDet orcA (by decide) (by decide) (by decide)⟩

end DataDreamer
